import Mathlib

/-!
Verification of the substrate Kafka adapter (`kafka/kafka.go`).

The development shallowly embeds the two event loops of the adapter:

* the consume loop of `AsyncMessageSource.ConsumeMessages`, which delivers
  broker messages to the caller, keeps the delivered-but-unacknowledged
  messages in the FIFO ledger `forAcking`, validates each acknowledgment
  against the ledger head, and commits the corresponding broker offset; and
* the publish loop of `AsyncMessageSink.doPublishMessages` together with its
  success-forwarding goroutine, plus the `PublishMessages` wrapper that closes
  the producer.

Channel operations and `select` resolutions are modelled as explicit event
sequences consumed by a step function; the state carries, besides the mutable
program state, the observable traces (messages delivered to the caller,
`MarkOffset` calls, acknowledgments emitted) that the claims speak about.
Go pointer identity of `*consumerMessage` handles is modelled by an allocation
counter `nextId` stamped into every handle.
-/

/-- A `sarama.ConsumerMessage` as far as the adapter looks at it:
partition, offset and payload bytes. -/
structure SaramaConsumerMessage where
  partition : Int
  offset : Int
  value : List Nat
deriving DecidableEq

/-- A `*consumerMessage` handle (the wrapper allocated at the top of the
broker-message branch of `ConsumeMessages`).  `id` models the allocation
identity of the Go pointer: two handles with equal `cm` but different `id`
are distinct, exactly like two distinct allocations with equal content. -/
structure ConsumerMessageH where
  id : Nat
  cm : SaramaConsumerMessage
deriving DecidableEq

/-- `Data()` of a `consumerMessage` returns the wrapped message's value. -/
def ConsumerMessageH.data (h : ConsumerMessageH) : List Nat :=
  h.cm.value

/-- Possible error results of `ConsumeMessages`:
`substrate.InvalidAckError{Acked, Expected}`, an error from the broker error
channel, or an error returned by `c.Close()` on the cancellation paths. -/
inductive ConsumeError where
  | invalidAck (acked : ConsumerMessageH) (expected : Option ConsumerMessageH)
  | broker (e : Nat)
  | closeErr (e : Nat)
deriving DecidableEq

/-- Observable actions of the consume loop, in program order:
sending a handle on the caller's `messages` channel, a `MarkOffset` call
(recorded with the marked message's partition and offset), and the removal
of the ledger head (`forAcking = forAcking[1:]`). -/
inductive ConsumeAction where
  | deliver (h : ConsumerMessageH)
  | commit (partition : Int) (offset : Int)
  | pop (h : ConsumerMessageH)
deriving DecidableEq

/-- One resolution of the outer `select` of `ConsumeMessages`.
For `brokerMsg`, `interrupted` records which branch of the inner
`select { case <-ctx.Done(); case messages <- message }` won: `true` means
the context was done and the delivery send was abandoned. -/
inductive ConsumeEvent where
  | brokerMsg (cm : SaramaConsumerMessage) (interrupted : Bool)
  | ack (a : ConsumerMessageH)
  | brokerErr (e : Nat)
  | cancel
deriving DecidableEq

/-- State of one `ConsumeMessages` session.  `forAcking` is the program
variable of the same name; `nextId` is the allocation counter for handles;
`delivered`, `acked`, `actions` and `brokerCms` are observable traces:
handles sent to the caller, acknowledgments accepted, the action trace,
and all messages received from `c.Messages()`. -/
structure ConsumeState where
  nextId : Nat
  forAcking : List ConsumerMessageH
  delivered : List ConsumerMessageH
  acked : List ConsumerMessageH
  actions : List ConsumeAction
  brokerCms : List SaramaConsumerMessage
deriving DecidableEq

/-- The state at the top of the consume loop: empty ledger, empty traces. -/
def consumeInit : ConsumeState :=
  { nextId := 0, forAcking := [], delivered := [], acked := [], actions := []
    brokerCms := [] }

/-- One iteration of the `for/select` loop of `ConsumeMessages`.
`closeRes` is the result `c.Close()` would return (`none` = nil error).
`Sum.inl s` means the loop continues with state `s`; `Sum.inr (s, r)` means
the function returns result `r` (with `r = none` the nil error) leaving the
observable state `s`. -/
def consumeMessagesStep (closeRes : Option Nat) (s : ConsumeState)
    (ev : ConsumeEvent) : ConsumeState ⊕ (ConsumeState × Option ConsumeError) :=
  match ev with
  | .brokerMsg cm interrupted =>
      let h : ConsumerMessageH := { id := s.nextId, cm := cm }
      if interrupted then
        Sum.inr ({ s with nextId := s.nextId + 1, brokerCms := s.brokerCms ++ [cm] },
          closeRes.map ConsumeError.closeErr)
      else
        Sum.inl { s with
          nextId := s.nextId + 1
          brokerCms := s.brokerCms ++ [cm]
          delivered := s.delivered ++ [h]
          forAcking := s.forAcking ++ [h]
          actions := s.actions ++ [ConsumeAction.deliver h] }
  | .ack a =>
      match s.forAcking with
      | [] => Sum.inr (s, some (ConsumeError.invalidAck a none))
      | h :: rest =>
          if a = h then
            Sum.inl { s with
              forAcking := rest
              acked := s.acked ++ [a]
              actions := s.actions ++
                [ConsumeAction.commit h.cm.partition h.cm.offset, ConsumeAction.pop h] }
          else
            Sum.inr (s, some (ConsumeError.invalidAck a (some h)))
  | .brokerErr e => Sum.inr (s, some (ConsumeError.broker e))
  | .cancel => Sum.inr (s, closeRes.map ConsumeError.closeErr)

/-- Run of `ConsumeMessages` over a sequence of select resolutions.
The second component is `none` while the loop is still running after the
events are exhausted, and `some r` when the function returned `r`. -/
def consumeMessagesRun (closeRes : Option Nat) (s : ConsumeState) :
    List ConsumeEvent → ConsumeState × Option (Option ConsumeError)
  | [] => (s, none)
  | ev :: evs =>
      match consumeMessagesStep closeRes s ev with
      | Sum.inl s' => consumeMessagesRun closeRes s' evs
      | Sum.inr (s', r) => (s', some r)

/-- The state component of a step result. -/
def stepState : ConsumeState ⊕ (ConsumeState × Option ConsumeError) → ConsumeState
  | Sum.inl s => s
  | Sum.inr (s, _) => s

/-- The `(partition, offset)` pairs of the `MarkOffset` calls in an action
trace, in order. -/
def commits (l : List ConsumeAction) : List (Int × Int) :=
  l.filterMap fun a =>
    match a with
    | ConsumeAction.commit p o => some (p, o)
    | _ => none

/-- The offsets belonging to partition `p` in a `(partition, offset)` list. -/
def offsetsFor (p : Int) (l : List (Int × Int)) : List Int :=
  (l.filter fun x => decide (x.1 = p)).map Prod.snd

/-- The broker messages occurring in an event sequence. -/
def brokerSeq (evs : List ConsumeEvent) : List SaramaConsumerMessage :=
  evs.filterMap fun ev =>
    match ev with
    | ConsumeEvent.brokerMsg cm _ => some cm
    | _ => none

/-- The broker messages contributed by one event. -/
def brokerSeqEv (ev : ConsumeEvent) : List SaramaConsumerMessage :=
  match ev with
  | ConsumeEvent.brokerMsg cm _ => [cm]
  | _ => []

/-- The `(partition, offset)` pairs of the broker messages in an event
sequence. -/
def deliverySeq (evs : List ConsumeEvent) : List (Int × Int) :=
  (brokerSeq evs).map fun cm => (cm.partition, cm.offset)

/-- Every `pop` in the action trace is immediately preceded by the
`MarkOffset` commit for the popped handle's partition and offset. -/
def commitBeforePop (l : List ConsumeAction) : Prop :=
  ∀ n h, l[n]? = some (ConsumeAction.pop h) →
    ∃ k, n = k + 1 ∧ l[k]? = some (ConsumeAction.commit h.cm.partition h.cm.offset)

/-- Invariant of the consume loop:
the delivery trace splits into the accepted acknowledgments followed by the
current ledger; commits correspond one-to-one, in order, to accepted
acknowledgments; delivered messages are a subsequence of the messages
received from the broker; and every pop is immediately preceded by its
commit. -/
def ConsumeInv (s : ConsumeState) : Prop :=
  s.delivered = s.acked ++ s.forAcking
  ∧ commits s.actions = s.acked.map (fun h => (h.cm.partition, h.cm.offset))
  ∧ List.Sublist (s.delivered.map ConsumerMessageH.cm) s.brokerCms
  ∧ commitBeforePop s.actions

/-- A `substrate.Message` on the publish path.  `id` models the identity of
the caller's handle (interface value); `data` is what `Data()` returns. -/
structure PMessage where
  id : Nat
  data : List Nat
deriving DecidableEq

/-- A `sarama.ProducerMessage` as built by the publish loop: topic, value,
optional key, and the `Metadata` correlation token (the original caller
message, stored unmodified). -/
structure SProducerMessage where
  topic : String
  value : List Nat
  key : Option (List Nat)
  metadata : PMessage
deriving DecidableEq

/-- The fields of `AsyncMessageSink` used by the publish loop. -/
structure AsyncMessageSink where
  topic : String
  keyFunc : Option (PMessage → List Nat)

/-- The `sarama.ProducerMessage` built in the `case m := <-messages` branch
of `doPublishMessages`: `Topic` from the sink, `Value = m.Data()`, `Key`
present iff `KeyFunc` is present (and then equal to `KeyFunc(m)`), and
`Metadata = m`. -/
def buildProducerMessage (ams : AsyncMessageSink) (m : PMessage) : SProducerMessage :=
  { topic := ams.topic
    value := m.data
    key := ams.keyFunc.map fun f => f m
    metadata := m }

/-- Error results of the publish path: an error from the producer error
channel, or an error returned by `producer.Close()`. -/
inductive PubError where
  | broker (e : Nat)
  | closeErr (e : Nat)
deriving DecidableEq

/-- One scheduler step of the publish path.  `recv`, `brokerErr` and
`cancel` are resolutions of the `select` of the `doPublishMessages` loop;
`signalSuccess` is the broker placing a success on the producer's
`Successes()` channel; `forward` is one iteration of the forwarding
goroutine (`acks <- suc.Metadata`), which runs concurrently with — and is
never joined by — the main loop. -/
inductive PubEvent where
  | recv (m : PMessage)
  | signalSuccess (pm : SProducerMessage)
  | forward
  | brokerErr (e : Nat)
  | cancel
deriving DecidableEq

/-- State of one publish session.  `sent` is the trace of messages handed to
`producer.Input()`; `pendingSucc` the successes signalled but not yet
forwarded; `ackStream` the acknowledgments emitted to the caller;
`mainResult = some r` once `doPublishMessages` has returned `r`
(`none` = still looping). -/
structure PubState where
  sent : List SProducerMessage
  pendingSucc : List SProducerMessage
  ackStream : List PMessage
  mainResult : Option (Option PubError)
deriving DecidableEq

/-- Initial publish state. -/
def pubInit : PubState :=
  { sent := [], pendingSucc := [], ackStream := [], mainResult := none }

/-- One interleaving step of the publish path.  Main-loop events after the
loop has returned leave the state unchanged (no one reads those channels);
the forwarding goroutine and the broker keep running regardless of
`mainResult`, because the goroutine is never joined. -/
def doPublishStep (ams : AsyncMessageSink) (s : PubState) (ev : PubEvent) : PubState :=
  match ev with
  | .recv m =>
      if s.mainResult.isSome then s
      else { s with sent := s.sent ++ [buildProducerMessage ams m] }
  | .signalSuccess pm =>
      { s with pendingSucc := s.pendingSucc ++ [pm] }
  | .forward =>
      match s.pendingSucc with
      | [] => s
      | pm :: rest =>
          { s with pendingSucc := rest, ackStream := s.ackStream ++ [pm.metadata] }
  | .brokerErr e =>
      if s.mainResult.isSome then s
      else { s with mainResult := some (some (PubError.broker e)) }
  | .cancel =>
      if s.mainResult.isSome then s
      else { s with mainResult := some none }

/-- Run of the publish path over a sequence of scheduler steps. -/
def doPublishRun (ams : AsyncMessageSink) (s : PubState) (evs : List PubEvent) : PubState :=
  evs.foldl (doPublishStep ams) s

/-- The return value of `PublishMessages` given the result of
`doPublishMessages` and the result of `producer.Close()`: a non-nil loop
error is returned as is (the close result is discarded), and a nil loop
result makes `PublishMessages` return `producer.Close()`. -/
def publishMessagesResult (closeRes : Option Nat) (doRes : Option PubError) :
    Option PubError :=
  match doRes with
  | some e => some e
  | none => closeRes.map PubError.closeErr

/-- Number of occurrences of message `M` in a list of caller messages. -/
def countAcks (M : PMessage) (l : List PMessage) : Nat :=
  l.countP fun x => decide (x = M)

/-- Number of pending successes whose correlation token is `M`. -/
def countPend (M : PMessage) (l : List SProducerMessage) : Nat :=
  l.countP fun pm => decide (pm.metadata = M)

/-- Number of broker success signals for token `M` in an event sequence. -/
def succCount (M : PMessage) (evs : List PubEvent) : Nat :=
  evs.countP fun ev =>
    match ev with
    | PubEvent.signalSuccess pm => decide (pm.metadata = M)
    | _ => false

/-- The partitioner constructor installed by `buildSaramaProducerConfig`. -/
inductive SaramaPartitioner where
  | hash
  | roundRobin
deriving DecidableEq

/-- `AsyncMessageSinkConfig` (durations in seconds, versions as numbers). -/
structure AsyncMessageSinkConfig where
  brokers : List String
  topic : String
  maxMessageBytes : Int
  keyFunc : Option (PMessage → List Nat)
  version : Option Nat

/-- The fields of the `sarama.Config` set by `buildSaramaProducerConfig`. -/
structure SaramaProducerConfig where
  requiredAcks : Int
  returnSuccesses : Bool
  returnErrors : Bool
  retryMax : Nat
  timeoutSeconds : Nat
  maxMessageBytes : Int
  partitioner : SaramaPartitioner
  version : Option Nat

/-- `sarama.NewConfig()` default for `Producer.MaxMessageBytes`. -/
def saramaDefaultMaxMessageBytes : Int := 1000000

/-- `buildSaramaProducerConfig`: `WaitForAll` acks (`-1`), returned
successes and errors, 3 retries, 60s timeout, `MaxMessageBytes` overridden
only when the configured value is non-zero, and the partitioner chosen by
presence of `KeyFunc` (hash if present, round-robin if absent).
The mutation of the `sarama.MaxRequestSize` package global is not modelled. -/
def buildSaramaProducerConfig (c : AsyncMessageSinkConfig) : SaramaProducerConfig :=
  { requiredAcks := -1
    returnSuccesses := true
    returnErrors := true
    retryMax := 3
    timeoutSeconds := 60
    maxMessageBytes :=
      if c.maxMessageBytes ≠ 0 then c.maxMessageBytes else saramaDefaultMaxMessageBytes
    partitioner :=
      if c.keyFunc.isSome then SaramaPartitioner.hash else SaramaPartitioner.roundRobin
    version := c.version }

/-- `OffsetOldest` of the adapter. -/
def OffsetOldest : Int := -2

/-- `OffsetNewest` of the adapter. -/
def OffsetNewest : Int := -1

/-- `defaultMetadataRefreshFrequency` (10 minutes), in seconds. -/
def defaultMetadataRefreshFrequency : Int := 600

/-- `AsyncMessageSourceConfig` (durations in seconds). -/
structure AsyncMessageSourceConfig where
  consumerGroup : String
  topic : String
  brokers : List String
  offset : Int
  metadataRefreshFrequency : Int
  offsetsRetention : Int
  version : Option Nat
deriving DecidableEq

/-- The fields of the `cluster.Config` set by `buildSaramaConsumerConfig`. -/
structure ClusterConsumerConfig where
  returnErrors : Bool
  offsetsInitial : Int
  metadataRefreshFrequency : Int
  offsetsRetention : Int
  version : Option Nat
deriving DecidableEq

/-- `buildSaramaConsumerConfig`: the initial offset starts as
`OffsetNewest` and is replaced by the configured `Offset` only when that is
non-zero; the metadata refresh frequency defaults when the configured value
is not positive. -/
def buildSaramaConsumerConfig (c : AsyncMessageSourceConfig) : ClusterConsumerConfig :=
  { returnErrors := true
    offsetsInitial := if c.offset ≠ 0 then c.offset else OffsetNewest
    metadataRefreshFrequency :=
      if c.metadataRefreshFrequency > 0 then c.metadataRefreshFrequency
      else defaultMetadataRefreshFrequency
    offsetsRetention := c.offsetsRetention
    version := c.version }

/-- `NewAsyncMessageSink`: the sink keeps the configured topic and key
function (the broker client construction is not modelled). -/
def newAsyncMessageSink (c : AsyncMessageSinkConfig) : AsyncMessageSink :=
  { topic := c.topic, keyFunc := c.keyFunc }

/-- A concrete broker message used by the witnesses. -/
def cmW0 : SaramaConsumerMessage := { partition := 0, offset := 5, value := [1] }

/-- The handle a session allocates for `cmW0` as its first delivery. -/
def hW0 : ConsumerMessageH := { id := 0, cm := cmW0 }

/-- A handle with the same content as `hW0` but a different identity. -/
def aW1 : ConsumerMessageH := { id := 1, cm := cmW0 }

/-- A consume session state whose ledger holds exactly `hW0`. -/
def sW0 : ConsumeState :=
  { nextId := 1, forAcking := [hW0], delivered := [hW0], acked := []
    actions := [ConsumeAction.deliver hW0], brokerCms := [cmW0] }

/-- Witness event sequence: one delivery followed by its in-order ack. -/
def evsW0 : List ConsumeEvent :=
  [ConsumeEvent.brokerMsg cmW0 false, ConsumeEvent.ack hW0]

/-- A concrete caller message used by the publish witnesses. -/
def mW : PMessage := { id := 0, data := [1] }

/-- A concrete sink without a key function. -/
def amsW : AsyncMessageSink := { topic := "t", keyFunc := none }

/-- The producer message the publish loop builds for `mW` on `amsW`. -/
def pmW : SProducerMessage := buildProducerMessage amsW mW

/-- Witness event sequence: send `mW`, broker success, forward the ack. -/
def evsW6 : List PubEvent :=
  [PubEvent.recv mW, PubEvent.signalSuccess pmW, PubEvent.forward]

/-- A concrete key-derivation function. -/
def fW : PMessage → List Nat := fun m => m.data

/-- A sink configuration with a key function. -/
def cKW : AsyncMessageSinkConfig :=
  { brokers := [], topic := "t", maxMessageBytes := 0, keyFunc := some fW, version := none }

/-- A sink configuration without a key function. -/
def cRW : AsyncMessageSinkConfig :=
  { brokers := [], topic := "t", maxMessageBytes := 0, keyFunc := none, version := none }

/-- A source configuration whose configured offset is `OffsetOldest`. -/
def srcW : AsyncMessageSourceConfig :=
  { consumerGroup := "g", topic := "t", brokers := [], offset := OffsetOldest
    metadataRefreshFrequency := 0, offsetsRetention := 0, version := none }

/-! ### Helper lemmas -/

/-- `commits` distributes over append. -/
theorem commits_append (l₁ l₂ : List ConsumeAction) :
    commits (l₁ ++ l₂) = commits l₁ ++ commits l₂ :=
  List.filterMap_append l₁ l₂ _

/-- A delivery action contributes no commit. -/
theorem commits_deliver (h : ConsumerMessageH) :
    commits [ConsumeAction.deliver h] = [] := rfl

/-- An accepted acknowledgment contributes exactly its commit. -/
theorem commits_ackPair (p o : Int) (h : ConsumerMessageH) :
    commits [ConsumeAction.commit p o, ConsumeAction.pop h] = [(p, o)] := rfl

/-- The empty action trace trivially satisfies `commitBeforePop`. -/
theorem commitBeforePop_nil : commitBeforePop [] := by
  intro n h hn
  simp at hn

/-- Appending a delivery action preserves `commitBeforePop`. -/
theorem commitBeforePop_append_deliver (l : List ConsumeAction) (h' : ConsumerMessageH)
    (hl : commitBeforePop l) :
    commitBeforePop (l ++ [ConsumeAction.deliver h']) := by
  intro n h hn
  rcases Nat.lt_or_ge n l.length with hlt | hge
  · rw [List.getElem?_append_left hlt] at hn
    obtain ⟨k, hk, hck⟩ := hl n h hn
    refine ⟨k, hk, ?_⟩
    rw [List.getElem?_append_left (by omega)]
    exact hck
  · rw [List.getElem?_append_right hge] at hn
    rcases hd : n - l.length with _ | m <;> rw [hd] at hn <;> simp at hn

/-- Appending a commit/pop pair for the acknowledged head preserves
`commitBeforePop`. -/
theorem commitBeforePop_append_ack (l : List ConsumeAction) (h0 : ConsumerMessageH)
    (hl : commitBeforePop l) :
    commitBeforePop (l ++
      [ConsumeAction.commit h0.cm.partition h0.cm.offset, ConsumeAction.pop h0]) := by
  intro n h hn
  rcases Nat.lt_or_ge n l.length with hlt | hge
  · rw [List.getElem?_append_left hlt] at hn
    obtain ⟨k, hk, hck⟩ := hl n h hn
    refine ⟨k, hk, ?_⟩
    rw [List.getElem?_append_left (by omega)]
    exact hck
  · rw [List.getElem?_append_right hge] at hn
    rcases hd : n - l.length with _ | m
    · rw [hd] at hn
      simp at hn
    · rcases m with _ | m'
      · rw [hd] at hn
        simp at hn
        refine ⟨l.length, by omega, ?_⟩
        rw [List.getElem?_append_right (Nat.le_refl _)]
        simp [hn]
      · rw [hd] at hn
        simp at hn

/-- The initial state satisfies the consume-loop invariant. -/
theorem consumeInit_inv : ConsumeInv consumeInit :=
  ⟨rfl, rfl, List.nil_sublist _, commitBeforePop_nil⟩

/-- Every iteration of the consume loop preserves the invariant, whether it
continues or returns. -/
theorem consumeMessagesStep_inv (closeRes : Option Nat) (s : ConsumeState)
    (ev : ConsumeEvent) (hs : ConsumeInv s) :
    ConsumeInv (stepState (consumeMessagesStep closeRes s ev)) := by
  obtain ⟨h1, h2, h3, h4⟩ := hs
  cases ev with
  | brokerMsg cm interrupted =>
      cases interrupted with
      | true =>
          have hstep : stepState (consumeMessagesStep closeRes s (ConsumeEvent.brokerMsg cm true))
              = { s with nextId := s.nextId + 1, brokerCms := s.brokerCms ++ [cm] } := rfl
          rw [hstep]
          exact ⟨h1, h2, h3.trans (List.sublist_append_left _ _), h4⟩
      | false =>
          have hstep : stepState (consumeMessagesStep closeRes s (ConsumeEvent.brokerMsg cm false))
              = { s with
                  nextId := s.nextId + 1
                  brokerCms := s.brokerCms ++ [cm]
                  delivered := s.delivered ++ [{ id := s.nextId, cm := cm }]
                  forAcking := s.forAcking ++ [{ id := s.nextId, cm := cm }]
                  actions := s.actions
                    ++ [ConsumeAction.deliver { id := s.nextId, cm := cm }] } := rfl
          rw [hstep]
          refine ⟨?_, ?_, ?_, ?_⟩
          · show s.delivered ++ _ = s.acked ++ (s.forAcking ++ _)
            rw [h1, List.append_assoc]
          · show commits (s.actions ++ _) = _
            rw [commits_append, commits_deliver, List.append_nil, h2]
          · show List.Sublist ((s.delivered ++ _).map ConsumerMessageH.cm) (s.brokerCms ++ [cm])
            rw [List.map_append]
            exact h3.append (List.Sublist.refl _)
          · exact commitBeforePop_append_deliver _ _ h4
  | ack a =>
      rcases hfa : s.forAcking with _ | ⟨h0, rest⟩
      · have hstep : stepState (consumeMessagesStep closeRes s (ConsumeEvent.ack a)) = s := by
          simp [consumeMessagesStep, hfa, stepState]
        rw [hstep]
        exact ⟨h1, h2, h3, h4⟩
      · by_cases hah : a = h0
        · have hstep : stepState (consumeMessagesStep closeRes s (ConsumeEvent.ack a))
              = { s with
                  forAcking := rest
                  acked := s.acked ++ [a]
                  actions := s.actions ++
                    [ConsumeAction.commit h0.cm.partition h0.cm.offset,
                      ConsumeAction.pop h0] } := by
            simp [consumeMessagesStep, hfa, hah, stepState]
          rw [hstep]
          refine ⟨?_, ?_, h3, ?_⟩
          · show s.delivered = (s.acked ++ [a]) ++ rest
            rw [h1, hfa, hah, List.append_assoc]
            rfl
          · show commits (s.actions ++ _) = (s.acked ++ [a]).map _
            rw [commits_append, commits_ackPair, h2, List.map_append, hah]
            rfl
          · exact commitBeforePop_append_ack _ _ h4
        · have hstep : stepState (consumeMessagesStep closeRes s (ConsumeEvent.ack a)) = s := by
            simp [consumeMessagesStep, hfa, hah, stepState]
          rw [hstep]
          exact ⟨h1, h2, h3, h4⟩
  | brokerErr e =>
      exact ⟨h1, h2, h3, h4⟩
  | cancel =>
      exact ⟨h1, h2, h3, h4⟩

/-- The consume-loop invariant holds after running any event sequence. -/
theorem consumeMessagesRun_inv (closeRes : Option Nat) (evs : List ConsumeEvent) :
    ∀ s : ConsumeState, ConsumeInv s →
      ConsumeInv (consumeMessagesRun closeRes s evs).1 := by
  induction evs with
  | nil => intro s hs; exact hs
  | cons ev evs ih =>
      intro s hs
      have hstep := consumeMessagesStep_inv closeRes s ev hs
      cases hres : consumeMessagesStep closeRes s ev with
      | inl s' =>
          have hrun : consumeMessagesRun closeRes s (ev :: evs)
              = consumeMessagesRun closeRes s' evs := by
            simp [consumeMessagesRun, hres]
          rw [hrun]
          rw [hres] at hstep
          exact ih s' hstep
      | inr pr =>
          obtain ⟨s', r⟩ := pr
          have hrun : consumeMessagesRun closeRes s (ev :: evs) = (s', some r) := by
            simp [consumeMessagesRun, hres]
          rw [hrun]
          rw [hres] at hstep
          exact hstep

/-- When the loop continues, the trace of broker-received messages grows by
exactly the broker messages of the event. -/
theorem consumeMessagesStep_inl_brokerCms (closeRes : Option Nat) (s : ConsumeState)
    (ev : ConsumeEvent) (s' : ConsumeState)
    (hres : consumeMessagesStep closeRes s ev = Sum.inl s') :
    s'.brokerCms = s.brokerCms ++ brokerSeqEv ev := by
  cases ev with
  | brokerMsg cm interrupted =>
      cases interrupted with
      | true => simp [consumeMessagesStep] at hres
      | false =>
          simp only [consumeMessagesStep, if_neg, Bool.false_eq_true,
            not_false_eq_true, if_false, Sum.inl.injEq] at hres
          rw [← hres]
          rfl
  | ack a =>
      rcases hfa : s.forAcking with _ | ⟨h0, rest⟩
      · simp [consumeMessagesStep, hfa] at hres
      · by_cases hah : a = h0
        · simp only [consumeMessagesStep, hfa, hah, if_pos, Sum.inl.injEq] at hres
          rw [← hres]
          simp [brokerSeqEv]
        · simp [consumeMessagesStep, hfa, hah] at hres
  | brokerErr e => simp [consumeMessagesStep] at hres
  | cancel => simp [consumeMessagesStep] at hres

/-- When the loop returns, the trace of broker-received messages grows by at
most the broker messages of the event. -/
theorem consumeMessagesStep_inr_brokerCms (closeRes : Option Nat) (s : ConsumeState)
    (ev : ConsumeEvent) (s' : ConsumeState) (r : Option ConsumeError)
    (hres : consumeMessagesStep closeRes s ev = Sum.inr (s', r)) :
    List.Sublist s'.brokerCms (s.brokerCms ++ brokerSeqEv ev) := by
  cases ev with
  | brokerMsg cm interrupted =>
      cases interrupted with
      | true =>
          simp only [consumeMessagesStep, if_pos, Sum.inr.injEq, Prod.mk.injEq] at hres
          rw [← hres.1]
          exact List.Sublist.refl _
      | false => simp [consumeMessagesStep] at hres
  | ack a =>
      rcases hfa : s.forAcking with _ | ⟨h0, rest⟩
      · simp only [consumeMessagesStep, hfa, Sum.inr.injEq, Prod.mk.injEq] at hres
        rw [← hres.1]
        simp [brokerSeqEv]
      · by_cases hah : a = h0
        · simp [consumeMessagesStep, hfa, hah] at hres
        · simp [consumeMessagesStep, hfa, hah] at hres
          rw [← hres.1]
          simp [brokerSeqEv]
  | brokerErr e =>
      simp only [consumeMessagesStep, Sum.inr.injEq, Prod.mk.injEq] at hres
      rw [← hres.1]
      simp [brokerSeqEv]
  | cancel =>
      simp only [consumeMessagesStep, Sum.inr.injEq, Prod.mk.injEq] at hres
      rw [← hres.1]
      simp [brokerSeqEv]

/-- Splitting `brokerSeq` at the first event. -/
theorem brokerSeq_cons (ev : ConsumeEvent) (evs : List ConsumeEvent) :
    brokerSeq (ev :: evs) = brokerSeqEv ev ++ brokerSeq evs := by
  cases ev <;> simp [brokerSeq, brokerSeqEv, List.filterMap_cons]

/-- After any run, the trace of broker-received messages is a subsequence of
the broker messages occurring in the events. -/
theorem consumeMessagesRun_brokerCms (closeRes : Option Nat) (evs : List ConsumeEvent) :
    ∀ s : ConsumeState,
      List.Sublist (consumeMessagesRun closeRes s evs).1.brokerCms
        (s.brokerCms ++ brokerSeq evs) := by
  induction evs with
  | nil =>
      intro s
      simp [consumeMessagesRun, brokerSeq]
  | cons ev evs ih =>
      intro s
      rw [brokerSeq_cons, ← List.append_assoc]
      cases hres : consumeMessagesStep closeRes s ev with
      | inl s' =>
          have hrun : consumeMessagesRun closeRes s (ev :: evs)
              = consumeMessagesRun closeRes s' evs := by
            simp [consumeMessagesRun, hres]
          rw [hrun]
          have hb := consumeMessagesStep_inl_brokerCms closeRes s ev s' hres
          have h := ih s'
          rw [hb] at h
          exact h
      | inr pr =>
          obtain ⟨s', r⟩ := pr
          have hrun : consumeMessagesRun closeRes s (ev :: evs) = (s', some r) := by
            simp [consumeMessagesRun, hres]
          rw [hrun]
          have hb := consumeMessagesStep_inr_brokerCms closeRes s ev s' r hres
          exact hb.trans (List.sublist_append_left _ _)

/-! ### Claims about the consume path -/

/-- Claim C1: for every sequence of delivered messages and caller
acknowledgments, if all acknowledgments are accepted — the session has not
terminated with an error — then the sequence of acknowledged messages is
exactly a prefix, in order, of the sequence of delivered messages. -/
theorem C1_ack_order (closeRes : Option Nat) (evs : List ConsumeEvent)
    (_hnoerr : (consumeMessagesRun closeRes consumeInit evs).2 = none
      ∨ (consumeMessagesRun closeRes consumeInit evs).2 = some none) :
    (consumeMessagesRun closeRes consumeInit evs).1.acked
      <+: (consumeMessagesRun closeRes consumeInit evs).1.delivered := by
  have hinv := consumeMessagesRun_inv closeRes evs consumeInit consumeInit_inv
  exact ⟨(consumeMessagesRun closeRes consumeInit evs).1.forAcking, hinv.1.symm⟩

/-- Witness for C1 on a concrete session: one delivery acknowledged in
order; the session is error-free and the acknowledged messages are a prefix
of the delivered ones. -/
theorem C1_ack_order_witness :
    ((consumeMessagesRun none consumeInit evsW0).2 = none
      ∨ (consumeMessagesRun none consumeInit evsW0).2 = some none)
    ∧ (consumeMessagesRun none consumeInit evsW0).1.acked
        <+: (consumeMessagesRun none consumeInit evsW0).1.delivered :=
  ⟨Or.inl (by decide), C1_ack_order none evsW0 (Or.inl (by decide))⟩

/-- Claim C2: every accepted acknowledgment triggers exactly one offset
commit, for the acknowledged message's partition and offset (the commit
trace equals, element by element, the accepted-acknowledgment trace); every
commit happens immediately before the head is removed from the ledger; and,
provided the broker delivers each partition's messages with strictly
increasing offsets, the committed offsets are strictly increasing per
partition across the session. -/
theorem C2_commits (closeRes : Option Nat) (evs : List ConsumeEvent)
    (H : ∀ p : Int, List.Pairwise (fun a b : Int => a < b)
      (offsetsFor p (deliverySeq evs))) :
    commits (consumeMessagesRun closeRes consumeInit evs).1.actions
      = (consumeMessagesRun closeRes consumeInit evs).1.acked.map
          (fun h => (h.cm.partition, h.cm.offset))
    ∧ commitBeforePop (consumeMessagesRun closeRes consumeInit evs).1.actions
    ∧ ∀ p : Int, List.Pairwise (fun a b : Int => a < b)
        (offsetsFor p (commits (consumeMessagesRun closeRes consumeInit evs).1.actions)) := by
  obtain ⟨h1, h2, h3, h4⟩ := consumeMessagesRun_inv closeRes evs consumeInit consumeInit_inv
  refine ⟨h2, h4, ?_⟩
  intro p
  have hack : List.Sublist (consumeMessagesRun closeRes consumeInit evs).1.acked
      (consumeMessagesRun closeRes consumeInit evs).1.delivered := by
    rw [h1]
    exact List.sublist_append_left _ _
  have hb' : List.Sublist (consumeMessagesRun closeRes consumeInit evs).1.brokerCms
      (brokerSeq evs) := by
    simpa [consumeInit] using consumeMessagesRun_brokerCms closeRes evs consumeInit
  have hcm : List.Sublist
      ((consumeMessagesRun closeRes consumeInit evs).1.acked.map ConsumerMessageH.cm)
      (brokerSeq evs) :=
    ((hack.map ConsumerMessageH.cm).trans h3).trans hb'
  have hcommits : List.Sublist
      (commits (consumeMessagesRun closeRes consumeInit evs).1.actions)
      (deliverySeq evs) := by
    rw [h2]
    have hmm := hcm.map (fun cm => (cm.partition, cm.offset))
    rw [List.map_map] at hmm
    exact hmm
  exact List.Pairwise.sublist ((hcommits.filter _).map _) (H p)

/-- The per-partition offsets of a single-element commit list are trivially
strictly increasing. -/
theorem pairwise_offsetsFor_singleton (p : Int) (x : Int × Int) :
    List.Pairwise (fun a b : Int => a < b) (offsetsFor p [x]) := by
  by_cases hx : x.1 = p
  · simp [offsetsFor, List.filter_cons, hx]
  · simp [offsetsFor, List.filter_cons, hx]

/-- Witness for C2 on a concrete session: one delivery acknowledged in
order satisfies the commit accounting, the commit-before-pop ordering, and
per-partition monotonicity. -/
theorem C2_commits_witness :
    commits (consumeMessagesRun none consumeInit evsW0).1.actions
      = (consumeMessagesRun none consumeInit evsW0).1.acked.map
          (fun h => (h.cm.partition, h.cm.offset))
    ∧ commitBeforePop (consumeMessagesRun none consumeInit evsW0).1.actions
    ∧ ∀ p : Int, List.Pairwise (fun a b : Int => a < b)
        (offsetsFor p (commits (consumeMessagesRun none consumeInit evsW0).1.actions)) :=
  C2_commits none evsW0 (by
    intro p
    rw [show deliverySeq evsW0 = [((0 : Int), (5 : Int))] from rfl]
    exact pairwise_offsetsFor_singleton p _)

/-- Claim C3: with a non-empty ledger, an acknowledgment whose handle is not
identical to the ledger head (identity, not content: handles with equal
wrapped messages but different allocation identities compare unequal) makes
`ConsumeMessages` return `InvalidAckError` carrying the acknowledged handle
and the expected head, terminating the session; the state — in particular
the action trace — is unchanged, so no offset commit is performed for it. -/
theorem C3_wrong_ack (closeRes : Option Nat) (s : ConsumeState)
    (a h0 : ConsumerMessageH) (rest : List ConsumerMessageH)
    (hfa : s.forAcking = h0 :: rest) (hne : a ≠ h0) :
    consumeMessagesStep closeRes s (ConsumeEvent.ack a)
      = Sum.inr (s, some (ConsumeError.invalidAck a (some h0))) := by
  simp [consumeMessagesStep, hfa, hne]

/-- Witness for C3: a handle with the same content as the ledger head but a
different identity is rejected with `InvalidAckError{Acked, Expected}`. -/
theorem C3_wrong_ack_witness :
    consumeMessagesStep none sW0 (ConsumeEvent.ack aW1)
      = Sum.inr (sW0, some (ConsumeError.invalidAck aW1 (some hW0))) :=
  C3_wrong_ack none sW0 aW1 hW0 [] rfl (by decide)

/-- Claim C4: an acknowledgment received while the in-flight ledger is empty
makes `ConsumeMessages` return `InvalidAckError` with the received message
as `Acked` and no expected message (`Expected = nil`), terminating the
session. -/
theorem C4_empty_ledger_ack (closeRes : Option Nat) (s : ConsumeState)
    (a : ConsumerMessageH) (hfa : s.forAcking = []) :
    consumeMessagesStep closeRes s (ConsumeEvent.ack a)
      = Sum.inr (s, some (ConsumeError.invalidAck a none)) := by
  simp [consumeMessagesStep, hfa]

/-- Witness for C4: acknowledging on the fresh session state terminates it
with `InvalidAckError{Acked, Expected: nil}`. -/
theorem C4_empty_ledger_ack_witness :
    consumeMessagesStep none consumeInit (ConsumeEvent.ack hW0)
      = Sum.inr (consumeInit, some (ConsumeError.invalidAck hW0 none)) :=
  C4_empty_ledger_ack none consumeInit hW0 rfl

/-- Counterexample to C5 as stated: a session terminated by cancellation
does not always return without error.  `ConsumeMessages` returns
`c.Close()` on the cancellation path, so when the broker-side close fails
(here with error 7) the session returns that error, not nil. -/
theorem C5_cancel_counterexample :
    consumeMessagesRun (some 7) consumeInit [ConsumeEvent.cancel]
      = (consumeInit, some (some (ConsumeError.closeErr 7)))
    ∧ some (ConsumeError.closeErr 7) ≠ (none : Option ConsumeError) :=
  ⟨rfl, by decide⟩

/-- Claim C5 as amended: if the cancellation branch wins the race against an
in-progress delivery send, the message is not delivered and never appended
to the in-flight ledger (`forAcking` and `delivered` are exactly those of
the pre-step state) and the session terminates; on every cancellation exit
the session terminates by closing the broker-side consumer session and
returns that close's result — nil exactly when the close succeeds. -/
theorem C5_cancel_amended (closeRes : Option Nat) (s : ConsumeState)
    (cm : SaramaConsumerMessage) :
    consumeMessagesStep closeRes s (ConsumeEvent.brokerMsg cm true)
      = Sum.inr ({ s with nextId := s.nextId + 1, brokerCms := s.brokerCms ++ [cm] },
          closeRes.map ConsumeError.closeErr)
    ∧ consumeMessagesStep closeRes s ConsumeEvent.cancel
      = Sum.inr (s, closeRes.map ConsumeError.closeErr)
    ∧ (Option.map ConsumeError.closeErr none : Option ConsumeError) = none :=
  ⟨rfl, rfl, rfl⟩

/-! ### Claims about the publish path -/

/-- Accounting invariant of the publish path: the number of acknowledgments
emitted for a message `M` plus the number of still-pending successes for
`M` equals the number of broker success signals for `M` in the events
(plus whatever the starting state already contained). -/
theorem doPublishRun_ack_count (ams : AsyncMessageSink) (M : PMessage)
    (evs : List PubEvent) :
    ∀ s : PubState,
      countAcks M (doPublishRun ams s evs).ackStream
          + countPend M (doPublishRun ams s evs).pendingSucc
        = countAcks M s.ackStream + countPend M s.pendingSucc + succCount M evs := by
  induction evs with
  | nil =>
      intro s
      simp [doPublishRun, succCount]
  | cons ev evs ih =>
      intro s
      have hrun : doPublishRun ams s (ev :: evs)
          = doPublishRun ams (doPublishStep ams s ev) evs := rfl
      rw [hrun, ih (doPublishStep ams s ev)]
      cases ev with
      | recv m =>
          by_cases hm : s.mainResult.isSome
          · simp [doPublishStep, hm, succCount, List.countP_cons]
          · simp [doPublishStep, hm, succCount, List.countP_cons]
      | signalSuccess pm =>
          simp [doPublishStep, countPend, countAcks, succCount,
            List.countP_append, List.countP_cons]
          omega
      | forward =>
          rcases hp : s.pendingSucc with _ | ⟨pm, rest⟩
          · simp [doPublishStep, hp, succCount, List.countP_cons]
          · simp [doPublishStep, hp, countPend, countAcks, succCount,
              List.countP_append, List.countP_cons]
            omega
      | brokerErr e =>
          by_cases hm : s.mainResult.isSome
          · simp [doPublishStep, hm, succCount, List.countP_cons]
          · simp [doPublishStep, hm, succCount, List.countP_cons]
      | cancel =>
          by_cases hm : s.mainResult.isSome
          · simp [doPublishStep, hm, succCount, List.countP_cons]
          · simp [doPublishStep, hm, succCount, List.countP_cons]

/-- Claim C6: for a message `M` handed to the broker, if the broker signals
success for `M` (exactly once, per the correlation-token contract) and the
forwarding goroutine has drained the pending successes, then `M` — the very
caller message stored as the correlation token, unmodified — appears
exactly once on the acknowledgment stream. -/
theorem C6_exactly_once (ams : AsyncMessageSink) (M : PMessage)
    (evs : List PubEvent)
    (_hsent : M ∈ (doPublishRun ams pubInit evs).sent.map SProducerMessage.metadata)
    (hsucc : succCount M evs = 1)
    (hdrained : (doPublishRun ams pubInit evs).pendingSucc = []) :
    countAcks M (doPublishRun ams pubInit evs).ackStream = 1 := by
  have h := doPublishRun_ack_count ams M evs pubInit
  rw [hdrained, hsucc] at h
  simp only [pubInit, countAcks, countPend, List.countP_nil] at h ⊢
  omega

/-- Witness for C6: send `mW`, receive the broker's success for it, forward
the acknowledgment; `mW` appears exactly once on the acknowledgment
stream. -/
theorem C6_exactly_once_witness :
    (mW ∈ (doPublishRun amsW pubInit evsW6).sent.map SProducerMessage.metadata
      ∧ succCount mW evsW6 = 1
      ∧ (doPublishRun amsW pubInit evsW6).pendingSucc = [])
    ∧ countAcks mW (doPublishRun amsW pubInit evsW6).ackStream = 1 :=
  ⟨⟨by decide, by decide, by decide⟩,
    C6_exactly_once amsW mW evsW6 (by decide) (by decide) (by decide)⟩

/-- Counterexample to C7 as stated: acknowledgments can still be emitted
after `PublishMessages` has terminated with a broker error.  The forwarding
goroutine is never joined: here the broker has already signalled success for
`pmW` when the error arrives, the loop returns the error with no
acknowledgment emitted yet, and one further goroutine step emits `mW` on
the acknowledgment stream after the return. -/
theorem C7_ack_after_error_counterexample :
    (doPublishRun amsW pubInit
        [PubEvent.signalSuccess pmW, PubEvent.brokerErr 5]).mainResult
      = some (some (PubError.broker 5))
    ∧ (doPublishRun amsW pubInit
        [PubEvent.signalSuccess pmW, PubEvent.brokerErr 5]).ackStream = []
    ∧ (doPublishRun amsW pubInit
        [PubEvent.signalSuccess pmW, PubEvent.brokerErr 5, PubEvent.forward]).ackStream
      = [mW] :=
  ⟨rfl, rfl, rfl⟩

/-- Claim C7 as amended: when the broker signals an asynchronous error while
the publish loop is running, `doPublishMessages` terminates immediately
returning that error, `PublishMessages` returns the same error, and the
loop consumes no further input messages; acknowledgments for successes the
broker had already signalled may however still be forwarded afterwards by
the never-joined forwarding goroutine. -/
theorem C7_broker_error (ams : AsyncMessageSink) (s : PubState) (e : Nat)
    (hrun : s.mainResult = none) :
    (doPublishStep ams s (PubEvent.brokerErr e)).mainResult
      = some (some (PubError.broker e))
    ∧ (∀ closeRes : Option Nat,
        publishMessagesResult closeRes (some (PubError.broker e))
          = some (PubError.broker e))
    ∧ ∀ (s' : PubState) (m : PMessage), s'.mainResult.isSome = true →
        doPublishStep ams s' (PubEvent.recv m) = s' := by
  refine ⟨?_, fun _ => rfl, ?_⟩
  · simp [doPublishStep, hrun]
  · intro s' m hs'
    simp [doPublishStep, hs']

/-- Witness for the amended C7 at a concrete running state. -/
theorem C7_broker_error_witness :
    (doPublishStep amsW pubInit (PubEvent.brokerErr 5)).mainResult
      = some (some (PubError.broker 5))
    ∧ (∀ closeRes : Option Nat,
        publishMessagesResult closeRes (some (PubError.broker 5))
          = some (PubError.broker 5))
    ∧ ∀ (s' : PubState) (m : PMessage), s'.mainResult.isSome = true →
        doPublishStep amsW s' (PubEvent.recv m) = s' :=
  C7_broker_error amsW pubInit 5 rfl

/-- Counterexample to C8 as stated: `PublishMessages` does not always return
without error when it terminates because the context is done.  On
cancellation `doPublishMessages` returns nil and `PublishMessages` then
returns `producer.Close()`; when the close fails (here with error 3) that
error is returned. -/
theorem C8_cancel_counterexample :
    (doPublishRun amsW pubInit [PubEvent.cancel]).mainResult = some none
    ∧ publishMessagesResult (some 3) none = some (PubError.closeErr 3)
    ∧ publishMessagesResult (some 3) none ≠ none :=
  ⟨rfl, rfl, by decide⟩

/-- Claim C8 as amended: when the publish loop terminates because the
cancellation context is done (and not because of a broker error),
`doPublishMessages` returns nil, and `PublishMessages` returns the result
of `producer.Close()` — in particular no error exactly when the close
succeeds. -/
theorem C8_cancel (ams : AsyncMessageSink) (s : PubState)
    (hrun : s.mainResult = none) :
    (doPublishStep ams s PubEvent.cancel).mainResult = some none
    ∧ (∀ closeRes : Option Nat,
        publishMessagesResult closeRes none = closeRes.map PubError.closeErr)
    ∧ publishMessagesResult none none = none := by
  refine ⟨?_, fun _ => rfl, rfl⟩
  simp [doPublishStep, hrun]

/-- Witness for the amended C8 at the initial state. -/
theorem C8_cancel_witness :
    (doPublishStep amsW pubInit PubEvent.cancel).mainResult = some none
    ∧ (∀ closeRes : Option Nat,
        publishMessagesResult closeRes none = closeRes.map PubError.closeErr)
    ∧ publishMessagesResult none none = none :=
  C8_cancel amsW pubInit rfl

/-! ### Claims about configuration -/

/-- Claim C9: when the key-derivation function is present the producer is
configured with hash partitioning and every outbound broker message carries
the key obtained by applying that function to the message; when it is
absent the producer is configured with round-robin partitioning and no key
is attached. -/
theorem C9_partitioning (c : AsyncMessageSinkConfig) :
    (∀ f, c.keyFunc = some f →
      (buildSaramaProducerConfig c).partitioner = SaramaPartitioner.hash
      ∧ ∀ m : PMessage,
          (buildProducerMessage (newAsyncMessageSink c) m).key = some (f m))
    ∧ (c.keyFunc = none →
      (buildSaramaProducerConfig c).partitioner = SaramaPartitioner.roundRobin
      ∧ ∀ m : PMessage,
          (buildProducerMessage (newAsyncMessageSink c) m).key = none) := by
  constructor
  · intro f hf
    constructor
    · simp [buildSaramaProducerConfig, hf]
    · intro m
      simp [buildProducerMessage, newAsyncMessageSink, hf]
  · intro hf
    constructor
    · simp [buildSaramaProducerConfig, hf]
    · intro m
      simp [buildProducerMessage, newAsyncMessageSink, hf]

/-- Witness for C9 on concrete configurations with and without a key
function. -/
theorem C9_partitioning_witness :
    ((buildSaramaProducerConfig cKW).partitioner = SaramaPartitioner.hash
      ∧ (buildProducerMessage (newAsyncMessageSink cKW) mW).key = some (fW mW))
    ∧ ((buildSaramaProducerConfig cRW).partitioner = SaramaPartitioner.roundRobin
      ∧ (buildProducerMessage (newAsyncMessageSink cRW) mW).key = none) :=
  ⟨⟨((C9_partitioning cKW).1 fW rfl).1, ((C9_partitioning cKW).1 fW rfl).2 mW⟩,
    ⟨((C9_partitioning cRW).2 rfl).1, ((C9_partitioning cRW).2 rfl).2 mW⟩⟩

/-- Claim C10: the consumer's initial offset policy defaults to
`OffsetNewest` when the configured `Offset` is zero (unset); any non-zero
configured value — including `OffsetOldest = -2` — is passed through
unchanged; and consequently the resulting initial offset is never the
literal zero. -/
theorem C10_initial_offset (c : AsyncMessageSourceConfig) :
    (c.offset = 0 →
      (buildSaramaConsumerConfig c).offsetsInitial = OffsetNewest)
    ∧ (c.offset ≠ 0 →
      (buildSaramaConsumerConfig c).offsetsInitial = c.offset)
    ∧ (buildSaramaConsumerConfig c).offsetsInitial ≠ 0 := by
  refine ⟨?_, ?_, ?_⟩
  · intro h
    simp [buildSaramaConsumerConfig, h]
  · intro h
    simp [buildSaramaConsumerConfig, h]
  · by_cases h : c.offset = 0
    · simp [buildSaramaConsumerConfig, h, OffsetNewest]
    · simp [buildSaramaConsumerConfig, h]

/-- Witness for C10: configuring `OffsetOldest` passes `-2` through
unchanged, and the resulting initial offset is non-zero. -/
theorem C10_initial_offset_witness :
    (buildSaramaConsumerConfig srcW).offsetsInitial = OffsetOldest
    ∧ (buildSaramaConsumerConfig srcW).offsetsInitial ≠ 0 :=
  ⟨(C10_initial_offset srcW).2.1 (by decide), (C10_initial_offset srcW).2.2⟩
